import Mathlib

/-
  Verification development for the multi-agent workflow orchestration core
  (src/multi-agent-system/lib/AgentOrchestrator.js, lib/BaseAgent.js,
  agents/ResearchAgent.js).

  Shallow embedding conventions:
  * JavaScript objects carrying dynamic data are modelled by the JSON-like
    value type `JVal`; an absent (undefined) field is `Option.none`.
  * Wall-clock time is not modelled: every `Date.now()` difference is 0, so
    every duration passed to `updateMetrics` is 0.  The metric counters
    (`tasksProcessed`, `errors`) are unaffected by this choice.
  * A thrown JavaScript exception is modelled as `Except.error msg` (for
    functions that can throw) or as the `ProcOutcome.raise` constructor (for
    an agent's `process` method).  Methods that mutate `this` return the
    updated state alongside their result.
  * `agent.process` is modelled by a `behavior` function taking the number
    of prior calls to this agent (so per-call behaviour such as
    "fail twice then succeed" is expressible), the task, and the agent's
    current metrics, returning the outcome and the updated metrics.
  * Backoff sleeps are recorded as the list of requested delays (in ms);
    no actual waiting is modelled.
-/

namespace MultiAgent

/-- JSON-like dynamic values, modelling the object payloads threaded
through tasks and agent results. -/
inductive JVal where
  | jnum : Int → JVal
  | jstr : String → JVal
  | jbool : Bool → JVal
  | jobj : List (String × JVal) → JVal
  | jarr : List JVal → JVal

/-- The result object returned by an agent's `process`
(`{success, data?, error?, agent?}`); absent fields are `none`. -/
structure AgentResult where
  success : Bool
  data : Option JVal
  error : Option String
  agent : Option String

/-- A task object (`{type, data?, stepName?, stepConfig?}`).  `ttype`
models the JS `type` field; the empty string models a falsy `type`. -/
structure Task where
  ttype : String
  data : Option JVal
  stepName : Option String
  stepConfig : Option JVal

/-- A workflow step `{name, agentName, config, retries?, escalateOnFailure}`;
`retries := none` models a step that does not specify `retries`. -/
structure WorkflowStep where
  name : String
  agentName : String
  config : Option JVal
  retries : Option Nat
  escalateOnFailure : Bool

/-- A workflow definition `{name, steps, escalationHandler?}`. -/
structure Workflow where
  name : String
  steps : List WorkflowStep
  escalationHandler : Option String

/-- BaseAgent metric counters (BaseAgent.js constructor). -/
structure Metrics where
  tasksProcessed : Nat
  errors : Nat
  averageProcessingTime : Rat
deriving DecidableEq

/-- BaseAgent.updateMetrics: increments `tasksProcessed`, increments
`errors` when `error` is true, and folds `processingTime` into the running
average. -/
def updateMetrics (m : Metrics) (processingTime : Rat) (error : Bool) : Metrics :=
  let n : Nat := m.tasksProcessed + 1
  { tasksProcessed := n
    errors := if error then m.errors + 1 else m.errors
    averageProcessingTime :=
      (m.averageProcessingTime * ((n : Rat) - 1) + processingTime) / (n : Rat) }

/-- Outcome of one call to an agent's `process`: a returned result object,
or a thrown error (message). -/
inductive ProcOutcome where
  | ret : AgentResult → ProcOutcome
  | raise : String → ProcOutcome

/-- An agent as seen by the orchestrator: its name and role, a `behavior`
function modelling `process` (first argument: how many times `process` has
been called on this agent so far), and its mutable runtime state (`calls`
counter and BaseAgent metrics). -/
structure Agent where
  name : String
  role : String
  behavior : Nat → Task → Metrics → ProcOutcome × Metrics
  calls : Nat
  metrics : Metrics

/-- The retry loop body of AgentOrchestrator.executeWithRetry.
`remaining` is the number of attempts still allowed (including the current
one), `attempt` the 1-based number of the current attempt, `lastError` the
error of the most recent failed attempt.  Returns the outcome (a returned
`AgentResult` or the re-raised last error), the updated agent, and the
list of backoff delays slept (ms).  When `remaining` reaches 0 the loop
has exhausted its attempts: the orchestrator calls
`agent.updateMetrics(0, true)` and re-raises `lastError` (with no prior
attempt, JS would throw `undefined`, modelled by the string "undefined"). -/
def retryAux (task : Task) : Nat → Nat → Option String → Agent →
    Except String AgentResult × Agent × List Nat
  | 0, _attempt, lastError, a =>
      (Except.error (lastError.getD "undefined"),
       { a with metrics := updateMetrics a.metrics 0 true }, [])
  | remaining + 1, attempt, _lastError, a =>
      match a.behavior a.calls task a.metrics with
      | (ProcOutcome.ret r, m) =>
          (Except.ok r,
           { a with calls := a.calls + 1, metrics := updateMetrics m 0 false }, [])
      | (ProcOutcome.raise e, m) =>
          let a1 : Agent := { a with calls := a.calls + 1, metrics := m }
          let rest := retryAux task remaining (attempt + 1) (some e) a1
          (rest.1, rest.2.1,
           (if 0 < remaining then [2 ^ attempt * 100] else []) ++ rest.2.2)

/-- AgentOrchestrator.executeWithRetry(agent, task, maxRetries): attempts
`agent.process(task)` up to `maxRetries` times; a returned result is
passed back immediately (after `agent.updateMetrics(duration, false)`);
a thrown error triggers a backoff sleep of `2^attempt * 100` ms between
attempts and, on exhaustion, `agent.updateMetrics(0, true)` followed by
re-raising the last error. -/
def executeWithRetry (a : Agent) (task : Task) (maxRetries : Nat) :
    Except String AgentResult × Agent × List Nat :=
  retryAux task maxRetries 1 none a

/-- The JS declaration of executeWithRetry gives `maxRetries` the default
value 3; this is the function obtained by calling it without that
argument.  (executeWorkflow never does: it always passes
`step.retries || 1`.) -/
def executeWithRetryDefault (a : Agent) (task : Task) :
    Except String AgentResult × Agent × List Nat :=
  executeWithRetry a task 3

/-- The JS expression `step.retries || 1`: `undefined` and `0` are falsy
and give 1; any positive count is used as given. -/
def retriesOr1 : Option Nat → Nat
  | none => 1
  | some 0 => 1
  | some (n + 1) => n + 1

/-- A JS `Map` keyed by strings, as an association list in insertion
order. -/
abbrev SMap (α : Type) := List (String × α)

/-- JS `Map.prototype.set`: replace the entry in place if the key is
present, append it otherwise. -/
def setEntry {α : Type} : SMap α → String → α → SMap α
  | [], k, v => [(k, v)]
  | (k1, v1) :: rest, k, v =>
      if k1 = k then (k, v) :: rest else (k1, v1) :: setEntry rest k v

/-- JS `Map.prototype.get`: the value stored under the key, if any. -/
def getEntry {α : Type} : SMap α → String → Option α
  | [], _ => none
  | (k1, v1) :: rest, k => if k1 = k then some v1 else getEntry rest k

/-- The registry of agents (`this.agents`). -/
abbrev AgentMap := SMap Agent

/-- One entry of the running results list:
`{step: step.name, agent: step.agentName, result: stepResult}`. -/
structure StepRecord where
  step : String
  agent : String
  result : AgentResult

/-- The object executeWorkflow hands back to its caller on a non-thrown
exit: normal completion (`{success:true, workflow, results, ...}`),
escalation through a handler
(`{success:false, escalated:true, escalationResult, previousResults}`),
or the default escalation outcome
(`{success:false, escalated:true, failedStep, error, previousResults}`). -/
inductive WfOutcome where
  | completed : String → List StepRecord → WfOutcome
  | escalatedHandled : AgentResult → List StepRecord → WfOutcome
  | escalatedDefault : String → AgentResult → List StepRecord → WfOutcome

/-- The `success` field of the returned object (absent fields are falsy). -/
def WfOutcome.success : WfOutcome → Bool
  | completed _ _ => true
  | escalatedHandled _ _ => false
  | escalatedDefault _ _ _ => false

/-- The `escalated` field of the returned object (absent on the completed
object, hence falsy). -/
def WfOutcome.escalated : WfOutcome → Bool
  | completed _ _ => false
  | escalatedHandled _ _ => true
  | escalatedDefault _ _ _ => true

/-- The list of step records carried by the returned object: `results` on
completion, `previousResults` on either escalation outcome. -/
def WfOutcome.records : WfOutcome → List StepRecord
  | completed _ rs => rs
  | escalatedHandled _ rs => rs
  | escalatedDefault _ _ rs => rs

/-- Encoding of an AgentResult object as a dynamic value (for the
escalation task payload); absent fields are omitted, as in JS. -/
def AgentResult.toJVal (r : AgentResult) : JVal :=
  JVal.jobj ([("success", JVal.jbool r.success)]
    ++ (match r.data with | some d => [("data", d)] | none => [])
    ++ (match r.error with | some e => [("error", JVal.jstr e)] | none => [])
    ++ (match r.agent with | some a => [("agent", JVal.jstr a)] | none => []))

/-- Encoding of a results-list entry as a dynamic value. -/
def StepRecord.toJVal (s : StepRecord) : JVal :=
  JVal.jobj [("step", JVal.jstr s.step), ("agent", JVal.jstr s.agent),
             ("result", s.result.toJVal)]

/-- The task handleEscalation synthesizes for the escalation handler:
`{type:'escalation', data:{workflow, failedStep, error, previousResults}}`. -/
def escalationTask (wf : Workflow) (failedStep : WorkflowStep)
    (errorResult : AgentResult) (previousResults : List StepRecord) : Task :=
  { ttype := "escalation"
    data := some (JVal.jobj
      [("workflow", JVal.jstr wf.name),
       ("failedStep", JVal.jstr failedStep.name),
       ("error", errorResult.toJVal),
       ("previousResults", JVal.jarr (previousResults.map StepRecord.toJVal))])
    stepName := none
    stepConfig := none }

/-- AgentOrchestrator.handleEscalation(workflow, failedStep, error,
previousResults): if the workflow names an escalation handler that is
registered, invoke it once (no retry) on the synthesized escalation task;
a returned result gives the handled outcome; a thrown error is caught and
logged, falling through — like a missing handler — to the default outcome
`{success:false, escalated:true, failedStep, error, previousResults}`.
The function itself never throws. -/
def handleEscalation (ag : AgentMap) (wf : Workflow) (failedStep : WorkflowStep)
    (errorResult : AgentResult) (previousResults : List StepRecord) :
    WfOutcome × AgentMap :=
  match wf.escalationHandler with
  | none => (WfOutcome.escalatedDefault failedStep.name errorResult previousResults, ag)
  | some hname =>
    match getEntry ag hname with
    | none => (WfOutcome.escalatedDefault failedStep.name errorResult previousResults, ag)
    | some handler =>
      match handler.behavior handler.calls
          (escalationTask wf failedStep errorResult previousResults)
          handler.metrics with
      | (ProcOutcome.ret escalationResult, m) =>
          (WfOutcome.escalatedHandled escalationResult previousResults,
           setEntry ag hname { handler with calls := handler.calls + 1, metrics := m })
      | (ProcOutcome.raise _, m) =>
          (WfOutcome.escalatedDefault failedStep.name errorResult previousResults,
           setEntry ag hname { handler with calls := handler.calls + 1, metrics := m })

/-- The per-step task: `{ ...currentTask, stepName: step.name,
stepConfig: step.config }`. -/
def stepTask (t : Task) (s : WorkflowStep) : Task :=
  { t with stepName := some s.name, stepConfig := s.config }

/-- Output threading after a step: `if (stepResult.data) currentTask =
{ ...currentTask, data: stepResult.data }` — the result's `data` replaces
the task's `data` field wholesale; a result without `data` leaves the
task untouched. -/
def threadTask (t : Task) (r : AgentResult) : Task :=
  match r.data with
  | some d => { t with data := some d }
  | none => t

/-- The step loop of AgentOrchestrator.executeWorkflow (the body of the
`for (const step of workflow.steps)` loop, together with the surrounding
try/catch which logs and re-raises any thrown error).  For each step:
resolve the agent (throwing "Agent not found" aborts the loop), run it
through executeWithRetry with `step.retries || 1`, push the
`{step, agent, result}` record, escalate-and-return if the returned
result is unsuccessful and the step is flagged, otherwise thread the
result data forward and continue.  A thrown error (agent missing or retry
exhaustion) propagates out as `Except.error`. -/
def runSteps (wf : Workflow) : List WorkflowStep → AgentMap → Task →
    List StepRecord → Except String WfOutcome × AgentMap
  | [], ag, _task, results => (Except.ok (WfOutcome.completed wf.name results), ag)
  | s :: rest, ag, task, results =>
    match getEntry ag s.agentName with
    | none => (Except.error ("Agent not found: " ++ s.agentName), ag)
    | some agent =>
      match executeWithRetry agent (stepTask task s) (retriesOr1 s.retries) with
      | (Except.error e, a1, _) => (Except.error e, setEntry ag s.agentName a1)
      | (Except.ok stepResult, a1, _) =>
        let ag1 := setEntry ag s.agentName a1
        let results1 := results ++ [⟨s.name, s.agentName, stepResult⟩]
        if !stepResult.success && s.escalateOnFailure then
          let esc := handleEscalation ag1 wf s stepResult results1
          (Except.ok esc.1, esc.2)
        else
          runSteps wf rest ag1 (threadTask task stepResult) results1

/-- Orchestrator state: agent registry, workflow table, in-flight
execution counter and its cap (constructor: counter 0, cap 10).  The
counter is an integer so that "never negative" is a statement, not a
truncation. -/
structure Orch where
  agents : AgentMap
  workflows : SMap Workflow
  activeTasksCount : Int
  maxConcurrentTasks : Int

/-- The orchestrator as built by `new AgentOrchestrator(logger)`. -/
def Orch.init : Orch :=
  { agents := [], workflows := [], activeTasksCount := 0, maxConcurrentTasks := 10 }

/-- AgentOrchestrator.registerAgent(agent): throws
"Agent <name> is already registered" when the name is taken (first
component `some message`, registry untouched); otherwise inserts the
agent under its name. -/
def registerAgent (o : Orch) (a : Agent) : Option String × Orch :=
  if (getEntry o.agents a.name).isSome then
    (some ("Agent " ++ a.name ++ " is already registered"), o)
  else
    (none, { o with agents := setEntry o.agents a.name a })

/-- AgentOrchestrator.registerWorkflow(name, workflow): unconditional
`Map.set` (re-registration overwrites). -/
def registerWorkflow (o : Orch) (name : String) (wf : Workflow) : Orch :=
  { o with workflows := setEntry o.workflows name wf }

/-- AgentOrchestrator.executeWorkflow(workflowName, initialTask): resolve
the workflow (throw "Workflow not found" if absent), then fail with
"Maximum concurrent tasks reached" when `activeTasksCount ≥
maxConcurrentTasks`; otherwise increment the counter, run the step loop,
and — whether it returns or throws — decrement the counter in `finally`
(hence the net `+ 1 - 1`).  The step loop's thrown errors are logged and
re-raised by the catch block, so they surface to the caller. -/
def executeWorkflow (o : Orch) (workflowName : String) (initialTask : Task) :
    Except String WfOutcome × Orch :=
  match getEntry o.workflows workflowName with
  | none => (Except.error ("Workflow not found: " ++ workflowName), o)
  | some wf =>
    if o.maxConcurrentTasks ≤ o.activeTasksCount then
      (Except.error "Maximum concurrent tasks reached", o)
    else
      let run := runSteps wf wf.steps o.agents initialTask []
      (run.1, { o with agents := run.2,
                       activeTasksCount := o.activeTasksCount + 1 - 1 })

/-- Restatement of the continue path of executeWorkflow's step loop, used
only to phrase hypotheses about a segment of consecutive steps that all
complete without a thrown error and without triggering escalation.  It
returns the updated registry, the threaded task and the records pushed
for the segment; it is related to `runSteps` by `runSteps_append_runSeg`
below. -/
def runSeg : List WorkflowStep → AgentMap → Task →
    Option (AgentMap × Task × List StepRecord)
  | [], ag, task => some (ag, task, [])
  | s :: rest, ag, task =>
    match getEntry ag s.agentName with
    | none => none
    | some agent =>
      match executeWithRetry agent (stepTask task s) (retriesOr1 s.retries) with
      | (Except.error _, _, _) => none
      | (Except.ok r, a1, _) =>
        if !r.success && s.escalateOnFailure then none
        else
          match runSeg rest (setEntry ag s.agentName a1) (threadTask task r) with
          | none => none
          | some (ag2, task2, recs) =>
              some (ag2, task2, ⟨s.name, s.agentName, r⟩ :: recs)

/-- BaseAgent.validateTask(task): throws on a missing/empty `type` field
or a missing `data` field (a task is always an object in this model); the
throw happens before any state or metric update. -/
def validateTask (t : Task) : Except String Unit :=
  if t.ttype = "" then Except.error "Invalid task: missing type field"
  else if t.data.isNone then Except.error "Invalid task: missing data field"
  else Except.ok ()

/-- BaseAgent.handleError(error, task): records the error in the metrics
(`updateMetrics(0, true)`) and returns the failed result object
`{success:false, error: message, agent: name, ...}` instead of
re-throwing. -/
def handleError (name : String) (e : String) (m : Metrics) :
    AgentResult × Metrics :=
  ({ success := false, data := none, error := some e, agent := some name },
   updateMetrics m 0 true)

/-- The `process` template shared by the BaseAgent subclasses
(ResearchAgent.process and its siblings): `validateTask` runs before the
try block, so its exception propagates out of `process`; inside the try,
the subclass-specific `switch (task.type)` body — abstracted here as
`dispatch`, which may throw (e.g. "Unknown task type") — either yields
data, after which the agent calls `this.updateMetrics(duration, false)`
and returns `{success:true, agent, data, ...}`, or throws, which
`handleError` converts into a returned failed result with
`updateMetrics(0, true)`. -/
def baseProcess (name : String) (dispatch : Task → Except String JVal)
    (task : Task) (m : Metrics) : ProcOutcome × Metrics :=
  match validateTask task with
  | Except.error e => (ProcOutcome.raise e, m)
  | Except.ok _ =>
    match dispatch task with
    | Except.ok d =>
        (ProcOutcome.ret
          { success := true, data := some d, error := none, agent := some name },
         updateMetrics m 0 false)
    | Except.error e =>
        let he := handleError name e m
        (ProcOutcome.ret he.1, he.2)

/-- Metrics as initialised by the BaseAgent constructor. -/
def freshMetrics : Metrics :=
  { tasksProcessed := 0, errors := 0, averageProcessingTime := 0 }

/-- An agent following the BaseAgent template, with fresh runtime state
(constructor: metrics all zero). -/
def mkBaseAgent (name role : String) (dispatch : Task → Except String JVal) :
    Agent :=
  { name := name, role := role
    behavior := fun _ t m => baseProcess name dispatch t m
    calls := 0
    metrics := freshMetrics }

/-! ### Helper lemmas -/

theorem getEntry_setEntry_self {α : Type} (ag : SMap α) (k : String) (v : α) :
    getEntry (setEntry ag k v) k = some v := by
  induction ag with
  | nil => simp [setEntry, getEntry]
  | cons hd tl ih =>
    rcases hd with ⟨k1, v1⟩
    by_cases h : k1 = k
    · simp [setEntry, getEntry, h]
    · simp [setEntry, getEntry, h, ih]

theorem getEntry_setEntry_ne {α : Type} (ag : SMap α) (k k1 : String) (v : α)
    (h : k1 ≠ k) : getEntry (setEntry ag k v) k1 = getEntry ag k1 := by
  have hk : k ≠ k1 := fun hh => h hh.symm
  induction ag with
  | nil => simp [setEntry, getEntry, hk]
  | cons hd tl ih =>
    rcases hd with ⟨k2, v2⟩
    by_cases h2 : k2 = k
    · subst h2
      simp [setEntry, getEntry, hk]
    · by_cases h3 : k2 = k1
      · subst h3
        simp [setEntry, getEntry, h2]
      · simp [setEntry, getEntry, h2, h3, ih]

theorem setEntry_length_absent {α : Type} (ag : SMap α) (k : String) (v : α)
    (h : getEntry ag k = none) : (setEntry ag k v).length = ag.length + 1 := by
  induction ag with
  | nil => simp [setEntry]
  | cons hd tl ih =>
    rcases hd with ⟨k1, v1⟩
    by_cases h1 : k1 = k
    · simp [getEntry, h1] at h
    · simp [getEntry, h1] at h
      simp [setEntry, h1, ih h]

/-- One-step unfolding of the retry loop: exhaustion. -/
theorem retryAux_zero (t : Task) (attempt : Nat) (le : Option String) (a : Agent) :
    retryAux t 0 attempt le a =
      (Except.error (le.getD "undefined"),
       { a with metrics := updateMetrics a.metrics 0 true }, []) := rfl

/-- One-step unfolding of the retry loop: the attempt returns a result. -/
theorem retryAux_succ_ret (t : Task) (n attempt : Nat) (le : Option String)
    (a : Agent) (r : AgentResult) (m : Metrics)
    (h : a.behavior a.calls t a.metrics = (ProcOutcome.ret r, m)) :
    retryAux t (n + 1) attempt le a =
      (Except.ok r,
       { a with calls := a.calls + 1, metrics := updateMetrics m 0 false }, []) := by
  simp only [retryAux, h]

/-- One-step unfolding of the retry loop: the attempt throws. -/
theorem retryAux_succ_raise (t : Task) (n attempt : Nat) (le : Option String)
    (a : Agent) (e : String) (m : Metrics)
    (h : a.behavior a.calls t a.metrics = (ProcOutcome.raise e, m)) :
    retryAux t (n + 1) attempt le a =
      ((retryAux t n (attempt + 1) (some e)
          { a with calls := a.calls + 1, metrics := m }).1,
       (retryAux t n (attempt + 1) (some e)
          { a with calls := a.calls + 1, metrics := m }).2.1,
       (if 0 < n then [2 ^ attempt * 100] else []) ++
         (retryAux t n (attempt + 1) (some e)
            { a with calls := a.calls + 1, metrics := m }).2.2) := by
  simp only [retryAux, h]

/-- An agent whose behaviour raises on every call (`errs` gives the
message of each call; the metrics are left untouched) makes exactly
`n + 1` attempts inside the retry loop, ends with `updateMetrics(0, true)`
and re-raises the error of the last attempt. -/
theorem retryAux_always_raise (t : Task)
    (b : Nat → Task → Metrics → ProcOutcome × Metrics) (errs : Nat → String)
    (hb : ∀ k mt, b k t mt = (ProcOutcome.raise (errs k), mt)) :
    ∀ (n : Nat) (a : Agent) (attempt : Nat) (le : Option String),
      a.behavior = b →
      ∃ sl, retryAux t (n + 1) attempt le a =
        (Except.error (errs (a.calls + n)),
         { a with calls := a.calls + n + 1,
                  metrics := updateMetrics a.metrics 0 true }, sl) := by
  intro n
  induction n with
  | zero =>
    intro a attempt le ha
    refine ⟨[], ?_⟩
    have hstep : a.behavior a.calls t a.metrics =
        (ProcOutcome.raise (errs a.calls), a.metrics) := by rw [ha, hb]
    rw [retryAux_succ_raise t 0 attempt le a (errs a.calls) a.metrics hstep,
        retryAux_zero]
    simp
  | succ k ih =>
    intro a attempt le ha
    have hstep : a.behavior a.calls t a.metrics =
        (ProcOutcome.raise (errs a.calls), a.metrics) := by rw [ha, hb]
    have ha1 : ({ a with calls := a.calls + 1, metrics := a.metrics } : Agent).behavior = b := ha
    rcases ih { a with calls := a.calls + 1, metrics := a.metrics } (attempt + 1)
        (some (errs a.calls)) ha1 with ⟨sl, hrec⟩
    refine ⟨(if 0 < k + 1 then [2 ^ attempt * 100] else []) ++ sl, ?_⟩
    rw [retryAux_succ_raise t (k + 1) attempt le a (errs a.calls) a.metrics hstep, hrec]
    have hi1 : a.calls + 1 + k = a.calls + (k + 1) := by omega
    have hi2 : a.calls + 1 + k + 1 = a.calls + (k + 1) + 1 := by omega
    simp [hi1, hi2]

/-- Packaged form of `retryAux_always_raise` for executeWithRetry. -/
theorem executeWithRetry_always_raise (t : Task)
    (b : Nat → Task → Metrics → ProcOutcome × Metrics) (errs : Nat → String)
    (hb : ∀ k mt, b k t mt = (ProcOutcome.raise (errs k), mt))
    (a : Agent) (ha : a.behavior = b) (n : Nat) (hn : 0 < n) :
    ∃ sl, executeWithRetry a t n =
      (Except.error (errs (a.calls + n - 1)),
       { a with calls := a.calls + n,
                metrics := updateMetrics a.metrics 0 true }, sl) := by
  rcases n with _ | m
  · omega
  · rcases retryAux_always_raise t b errs hb m a 1 none ha with ⟨sl, h⟩
    refine ⟨sl, ?_⟩
    have h1 : a.calls + (m + 1) - 1 = a.calls + m := by omega
    have h2 : a.calls + m + 1 = a.calls + (m + 1) := by omega
    rw [executeWithRetry, h, h1, ← h2]

theorem runSteps_cons_err (wf : Workflow) (s : WorkflowStep)
    (rest : List WorkflowStep) (ag : AgentMap) (task : Task)
    (results : List StepRecord) (agent a1 : Agent) (e : String) (sl : List Nat)
    (hl : getEntry ag s.agentName = some agent)
    (hx : executeWithRetry agent (stepTask task s) (retriesOr1 s.retries) =
          (Except.error e, a1, sl)) :
    runSteps wf (s :: rest) ag task results =
      (Except.error e, setEntry ag s.agentName a1) := by
  simp only [runSteps, hl, hx]

theorem runSteps_cons_escalate (wf : Workflow) (s : WorkflowStep)
    (rest : List WorkflowStep) (ag : AgentMap) (task : Task)
    (results : List StepRecord) (agent a1 : Agent) (r : AgentResult) (sl : List Nat)
    (hl : getEntry ag s.agentName = some agent)
    (hx : executeWithRetry agent (stepTask task s) (retriesOr1 s.retries) =
          (Except.ok r, a1, sl))
    (hcond : (!r.success && s.escalateOnFailure) = true) :
    runSteps wf (s :: rest) ag task results =
      (Except.ok (handleEscalation (setEntry ag s.agentName a1) wf s r
          (results ++ [⟨s.name, s.agentName, r⟩])).1,
       (handleEscalation (setEntry ag s.agentName a1) wf s r
          (results ++ [⟨s.name, s.agentName, r⟩])).2) := by
  simp only [runSteps, hl, hx, hcond, if_true]

theorem runSteps_cons_continue (wf : Workflow) (s : WorkflowStep)
    (rest : List WorkflowStep) (ag : AgentMap) (task : Task)
    (results : List StepRecord) (agent a1 : Agent) (r : AgentResult) (sl : List Nat)
    (hl : getEntry ag s.agentName = some agent)
    (hx : executeWithRetry agent (stepTask task s) (retriesOr1 s.retries) =
          (Except.ok r, a1, sl))
    (hcond : (!r.success && s.escalateOnFailure) = false) :
    runSteps wf (s :: rest) ag task results =
      runSteps wf rest (setEntry ag s.agentName a1) (threadTask task r)
        (results ++ [⟨s.name, s.agentName, r⟩]) := by
  simp only [runSteps, hl, hx, hcond, Bool.false_eq_true, if_false]

theorem runSeg_cons_continue (s : WorkflowStep) (rest : List WorkflowStep)
    (ag : AgentMap) (task : Task) (agent a1 : Agent) (r : AgentResult)
    (sl : List Nat) (ag2 : AgentMap) (task2 : Task) (recs : List StepRecord)
    (hl : getEntry ag s.agentName = some agent)
    (hx : executeWithRetry agent (stepTask task s) (retriesOr1 s.retries) =
          (Except.ok r, a1, sl))
    (hcond : (!r.success && s.escalateOnFailure) = false)
    (hrest : runSeg rest (setEntry ag s.agentName a1) (threadTask task r) =
             some (ag2, task2, recs)) :
    runSeg (s :: rest) ag task =
      some (ag2, task2, ⟨s.name, s.agentName, r⟩ :: recs) := by
  simp only [runSeg, hl, hx, hcond, Bool.false_eq_true, if_false, hrest]

/-- Running an initial segment of the step list that neither throws nor
escalates, then the remainder, is running the whole list. -/
theorem runSteps_append_runSeg (wf : Workflow) :
    ∀ (steps rest : List WorkflowStep) (ag : AgentMap) (task : Task)
      (results : List StepRecord) (ag1 : AgentMap) (task1 : Task)
      (recs : List StepRecord),
      runSeg steps ag task = some (ag1, task1, recs) →
      runSteps wf (steps ++ rest) ag task results =
        runSteps wf rest ag1 task1 (results ++ recs) := by
  intro steps
  induction steps with
  | nil =>
    intro rest ag task results ag1 task1 recs h
    simp only [runSeg, Option.some.injEq, Prod.mk.injEq] at h
    rcases h with ⟨h1, h2, h3⟩
    subst h1; subst h2; subst h3
    simp
  | cons s tl ih =>
    intro rest ag task results ag1 task1 recs h
    cases hl : getEntry ag s.agentName with
    | none => simp [runSeg, hl] at h
    | some agent =>
      rcases hx : executeWithRetry agent (stepTask task s) (retriesOr1 s.retries)
        with ⟨out, a1, sl⟩
      cases out with
      | error e => simp [runSeg, hl, hx] at h
      | ok r =>
        cases hcond : (!r.success && s.escalateOnFailure) with
        | true => simp [runSeg, hl, hx, hcond] at h
        | false =>
          cases hrest : runSeg tl (setEntry ag s.agentName a1) (threadTask task r) with
          | none => simp [runSeg, hl, hx, hcond, hrest] at h
          | some trip =>
            rcases trip with ⟨ag2, task2, recs2⟩
            rw [runSeg_cons_continue s tl ag task agent a1 r sl ag2 task2 recs2
                 hl hx hcond hrest] at h
            simp only [Option.some.injEq, Prod.mk.injEq] at h
            rcases h with ⟨h1, h2, h3⟩
            subst h1; subst h2
            have hih := ih rest (setEntry ag s.agentName a1) (threadTask task r)
              (results ++ [{ step := s.name, agent := s.agentName, result := r }])
              ag2 task2 recs2 hrest
            rw [List.cons_append,
               runSteps_cons_continue wf s (tl ++ rest) ag task results agent a1 r sl hl hx hcond,
               hih, ← h3]
            simp

/-- A successful segment pushes exactly one record per step. -/
theorem runSeg_length :
    ∀ (steps : List WorkflowStep) (ag : AgentMap) (task : Task)
      (ag1 : AgentMap) (task1 : Task) (recs : List StepRecord),
      runSeg steps ag task = some (ag1, task1, recs) →
      recs.length = steps.length := by
  intro steps
  induction steps with
  | nil =>
    intro ag task ag1 task1 recs h
    simp only [runSeg, Option.some.injEq, Prod.mk.injEq] at h
    rcases h with ⟨_, _, h3⟩
    simp [← h3]
  | cons s tl ih =>
    intro ag task ag1 task1 recs h
    cases hl : getEntry ag s.agentName with
    | none => simp [runSeg, hl] at h
    | some agent =>
      rcases hx : executeWithRetry agent (stepTask task s) (retriesOr1 s.retries)
        with ⟨out, a1, sl⟩
      cases out with
      | error e => simp [runSeg, hl, hx] at h
      | ok r =>
        cases hcond : (!r.success && s.escalateOnFailure) with
        | true => simp [runSeg, hl, hx, hcond] at h
        | false =>
          cases hrest : runSeg tl (setEntry ag s.agentName a1) (threadTask task r) with
          | none => simp [runSeg, hl, hx, hcond, hrest] at h
          | some trip =>
            rcases trip with ⟨ag2, task2, recs2⟩
            rw [runSeg_cons_continue s tl ag task agent a1 r sl ag2 task2 recs2
                 hl hx hcond hrest] at h
            simp only [Option.some.injEq, Prod.mk.injEq] at h
            rcases h with ⟨_, _, h3⟩
            have hlen := ih (setEntry ag s.agentName a1) (threadTask task r) ag2 task2 recs2 hrest
            simp [← h3, hlen]

/-- handleEscalation touches at most the escalation handler's registry
entry. -/
theorem handleEscalation_getEntry_ne (ag : AgentMap) (wf : Workflow)
    (s : WorkflowStep) (r : AgentResult) (rs : List StepRecord) (nm : String)
    (h : wf.escalationHandler ≠ some nm) :
    getEntry (handleEscalation ag wf s r rs).2 nm = getEntry ag nm := by
  rcases hh : wf.escalationHandler with _ | hname
  · simp [handleEscalation, hh]
  · have hne : nm ≠ hname := fun heq => h (by rw [hh, heq])
    rcases hl : getEntry ag hname with _ | handler
    · simp [handleEscalation, hh, hl]
    · rcases hb : handler.behavior handler.calls (escalationTask wf s r rs) handler.metrics
        with ⟨out, m⟩
      cases out with
      | ret res =>
        simp [handleEscalation, hh, hl, hb, getEntry_setEntry_ne ag hname nm _ hne]
      | raise e =>
        simp [handleEscalation, hh, hl, hb, getEntry_setEntry_ne ag hname nm _ hne]

/-- Every handleEscalation outcome carries `success:false, escalated:true`. -/
theorem handleEscalation_flags (ag : AgentMap) (wf : Workflow)
    (s : WorkflowStep) (r : AgentResult) (rs : List StepRecord) :
    (handleEscalation ag wf s r rs).1.success = false ∧
    (handleEscalation ag wf s r rs).1.escalated = true := by
  rcases hh : wf.escalationHandler with _ | hname
  · simp [handleEscalation, hh, WfOutcome.success, WfOutcome.escalated]
  · rcases hl : getEntry ag hname with _ | handler
    · simp [handleEscalation, hh, hl, WfOutcome.success, WfOutcome.escalated]
    · rcases hb : handler.behavior handler.calls (escalationTask wf s r rs) handler.metrics
        with ⟨out, m⟩
      cases out with
      | ret res =>
        simp [handleEscalation, hh, hl, hb, WfOutcome.success, WfOutcome.escalated]
      | raise e =>
        simp [handleEscalation, hh, hl, hb, WfOutcome.success, WfOutcome.escalated]

/-- handleEscalation keeps the previousResults list it was given. -/
theorem handleEscalation_records (ag : AgentMap) (wf : Workflow)
    (s : WorkflowStep) (r : AgentResult) (rs : List StepRecord) :
    (handleEscalation ag wf s r rs).1.records = rs := by
  rcases hh : wf.escalationHandler with _ | hname
  · simp [handleEscalation, hh, WfOutcome.records]
  · rcases hl : getEntry ag hname with _ | handler
    · simp [handleEscalation, hh, hl, WfOutcome.records]
    · rcases hb : handler.behavior handler.calls (escalationTask wf s r rs) handler.metrics
        with ⟨out, m⟩
      cases out with
      | ret res => simp [handleEscalation, hh, hl, hb, WfOutcome.records]
      | raise e => simp [handleEscalation, hh, hl, hb, WfOutcome.records]

/-- `step.retries || 1` is always at least one attempt. -/
theorem retriesOr1_pos (x : Option Nat) : 0 < retriesOr1 x := by
  rcases x with _ | n
  · simp [retriesOr1]
  · rcases n with _ | m <;> simp [retriesOr1]

theorem updateMetrics_tasksProcessed (m : Metrics) (p : Rat) (e : Bool) :
    (updateMetrics m p e).tasksProcessed = m.tasksProcessed + 1 := rfl

theorem updateMetrics_errors_true (m : Metrics) (p : Rat) :
    (updateMetrics m p true).errors = m.errors + 1 := rfl

theorem updateMetrics_errors_false (m : Metrics) (p : Rat) :
    (updateMetrics m p false).errors = m.errors := rfl

/-- executeWorkflow on an unknown workflow name. -/
theorem executeWorkflow_notfound (o : Orch) (name : String) (t : Task)
    (hw : getEntry o.workflows name = none) :
    executeWorkflow o name t =
      (Except.error ("Workflow not found: " ++ name), o) := by
  simp only [executeWorkflow, hw]

/-- executeWorkflow at capacity (with the workflow registered). -/
theorem executeWorkflow_capacity (o : Orch) (name : String) (t : Task)
    (wf : Workflow) (hw : getEntry o.workflows name = some wf)
    (hc : o.maxConcurrentTasks ≤ o.activeTasksCount) :
    executeWorkflow o name t = (Except.error "Maximum concurrent tasks reached", o) := by
  simp only [executeWorkflow, hw]
  rw [if_pos hc]

/-- executeWorkflow below capacity: increment, run the step loop,
decrement. -/
theorem executeWorkflow_found (o : Orch) (name : String) (t : Task)
    (wf : Workflow) (hw : getEntry o.workflows name = some wf)
    (hc : o.activeTasksCount < o.maxConcurrentTasks) :
    executeWorkflow o name t =
      ((runSteps wf wf.steps o.agents t []).1,
       { o with agents := (runSteps wf wf.steps o.agents t []).2,
                activeTasksCount := o.activeTasksCount + 1 - 1 }) := by
  simp only [executeWorkflow, hw]
  rw [if_neg (not_le.mpr hc)]

/-! ### C9 -/

/-- C9: if `agent.process` returns (rather than throws) on the first
attempt, executeWithRetry passes that AgentResult straight back — even a
result with `success:false` — after a single attempt (`calls` grows by
exactly 1), with no backoff sleep; only a thrown error would have
triggered a retry. -/
theorem C9_returned_result_ends_retry (a : Agent) (t : Task) (n : Nat)
    (r : AgentResult) (m : Metrics) (hn : 0 < n)
    (hret : a.behavior a.calls t a.metrics = (ProcOutcome.ret r, m)) :
    executeWithRetry a t n =
      (Except.ok r,
       { a with calls := a.calls + 1, metrics := updateMetrics m 0 false }, []) := by
  rcases n with _ | k
  · omega
  · rw [executeWithRetry, retryAux_succ_ret t k 1 none a r m hret]

def w9result : AgentResult :=
  { success := false, data := none, error := some "failed", agent := some "W9" }

def w9agent : Agent :=
  { name := "W9", role := "worker"
    behavior := fun _ _ m => (ProcOutcome.ret w9result, m)
    calls := 0, metrics := freshMetrics }

def w9task : Task :=
  { ttype := "x", data := none, stepName := none, stepConfig := none }

/-- Witness for C9: a returned failed result ends the retry loop on
attempt 1 of 3 with no backoff. -/
theorem C9_returned_result_ends_retry_witness :
    executeWithRetry w9agent w9task 3 =
      (Except.ok w9result,
       { w9agent with calls := w9agent.calls + 1,
                      metrics := updateMetrics w9agent.metrics 0 false }, []) :=
  C9_returned_result_ends_retry w9agent w9task 3 w9result w9agent.metrics
    (by decide) rfl

/-! ### C2 -/

/-- C2 (amended): executeWorkflow passes `step.retries || 1` — not the
declaration default 3 — to executeWithRetry, so a step without a
`retries` value gets exactly ONE attempt; a step with `retries = n ≥ 1`
gets n attempts, and `retries = 0` also gets one.  The default 3 belongs
only to executeWithRetry's own signature (`executeWithRetryDefault`),
which executeWorkflow never uses.  Stated on a head step whose agent
throws on every attempt: the agent is invoked exactly
`retriesOr1 step.retries` times. -/
theorem C2_retry_budget (o : Orch) (name : String) (t : Task) (wf : Workflow)
    (s : WorkflowStep) (rest : List WorkflowStep) (a : Agent)
    (b : Nat → Task → Metrics → ProcOutcome × Metrics) (errs : Nat → String)
    (hw : getEntry o.workflows name = some wf)
    (hc : o.activeTasksCount < o.maxConcurrentTasks)
    (hs : wf.steps = s :: rest)
    (hl : getEntry o.agents s.agentName = some a)
    (ha : a.behavior = b)
    (hb : ∀ k mt, b k (stepTask t s) mt = (ProcOutcome.raise (errs k), mt)) :
    ((getEntry (executeWorkflow o name t).2.agents s.agentName).map Agent.calls =
       some (a.calls + retriesOr1 s.retries)) ∧
    (executeWorkflow o name t).1 =
      Except.error (errs (a.calls + retriesOr1 s.retries - 1)) ∧
    retriesOr1 none = 1 ∧ retriesOr1 (some 0) = 1 ∧
    (∀ n : Nat, retriesOr1 (some (n + 1)) = n + 1) ∧
    (∀ a2 t2, executeWithRetryDefault a2 t2 = executeWithRetry a2 t2 3) := by
  rcases executeWithRetry_always_raise (stepTask t s) b errs hb a ha
      (retriesOr1 s.retries) (retriesOr1_pos s.retries) with ⟨sl, hx⟩
  have hrun := runSteps_cons_err wf s rest o.agents t [] a
      { a with calls := a.calls + retriesOr1 s.retries,
               metrics := updateMetrics a.metrics 0 true }
      (errs (a.calls + retriesOr1 s.retries - 1)) sl hl hx
  rw [executeWorkflow_found o name t wf hw hc, hs, hrun]
  refine ⟨?_, rfl, rfl, rfl, fun n => rfl, fun a2 t2 => rfl⟩
  rw [getEntry_setEntry_self]
  rfl

def c2agent : Agent :=
  { name := "A", role := "worker"
    behavior := fun _ _ m => (ProcOutcome.raise "boom", m)
    calls := 0, metrics := freshMetrics }

def c2step : WorkflowStep :=
  { name := "s1", agentName := "A", config := none, retries := none,
    escalateOnFailure := false }

def c2wf : Workflow :=
  { name := "w2", steps := [c2step], escalationHandler := none }

def c2orch : Orch :=
  { agents := [("A", c2agent)], workflows := [("w2", c2wf)],
    activeTasksCount := 0, maxConcurrentTasks := 10 }

def c2task : Task :=
  { ttype := "x", data := none, stepName := none, stepConfig := none }

/-- Witness for C2's amended statement, at a concrete one-step workflow
whose step carries no `retries` value and whose agent always throws: the
agent is attempted exactly once. -/
theorem C2_retry_budget_witness :
    ((getEntry (executeWorkflow c2orch "w2" c2task).2.agents "A").map Agent.calls =
       some (c2agent.calls + retriesOr1 c2step.retries)) ∧
    (executeWorkflow c2orch "w2" c2task).1 =
      Except.error "boom" ∧
    retriesOr1 none = 1 ∧ retriesOr1 (some 0) = 1 ∧
    (∀ n : Nat, retriesOr1 (some (n + 1)) = n + 1) ∧
    (∀ a2 t2, executeWithRetryDefault a2 t2 = executeWithRetry a2 t2 3) :=
  C2_retry_budget c2orch "w2" c2task c2wf c2step [] c2agent
    (fun _ _ m => (ProcOutcome.raise "boom", m)) (fun _ => "boom")
    rfl (by decide) rfl rfl rfl (fun k mt => rfl)

def c2xagent : Agent :=
  { name := "AX", role := "worker"
    behavior := fun k _ m =>
      if k = 0 then (ProcOutcome.raise "boom1", m)
      else (ProcOutcome.ret { success := true, data := none, error := none,
                              agent := some "AX" }, m)
    calls := 0, metrics := freshMetrics }

def c2xstep : WorkflowStep :=
  { name := "s1", agentName := "AX", config := none, retries := none,
    escalateOnFailure := false }

def c2xwf : Workflow :=
  { name := "w2x", steps := [c2xstep], escalationHandler := none }

def c2xorch : Orch :=
  { agents := [("AX", c2xagent)], workflows := [("w2x", c2xwf)],
    activeTasksCount := 0, maxConcurrentTasks := 10 }

/-- Counterexample to C2 as stated: a step with no `retries` value whose
agent throws on the first attempt and would succeed on any later attempt.
With the claimed default of 3 attempts the workflow would succeed; the
code gives the step exactly one attempt and the workflow fails with the
first error, the agent having been called exactly once. -/
theorem C2_counterexample :
    (executeWorkflow c2xorch "w2x" c2task).1 = Except.error "boom1" ∧
    ((getEntry (executeWorkflow c2xorch "w2x" c2task).2.agents "AX").map
       Agent.calls = some 1) ∧
    c2xstep.retries = none := ⟨rfl, rfl, rfl⟩

/-! ### C1 -/

/-- C1 (amended): when a step's agent throws on every attempt,
executeWithRetry re-raises the error of the LAST attempt, and that error
propagates out of the step loop: executeWorkflow's catch block logs and
re-throws it, so the whole workflow aborts with the raised error.  No
`{step, agent, result}` entry surfaces for the failing step and its
`escalateOnFailure` flag is never evaluated (the theorem holds for either
flag value); the `finally` decrement still restores the counter. -/
theorem C1_exhaustion_aborts_workflow (o : Orch) (name : String) (t : Task)
    (wf : Workflow) (pre post : List WorkflowStep) (s : WorkflowStep)
    (ag1 : AgentMap) (task1 : Task) (recs : List StepRecord) (a : Agent)
    (b : Nat → Task → Metrics → ProcOutcome × Metrics) (errs : Nat → String)
    (hw : getEntry o.workflows name = some wf)
    (hc : o.activeTasksCount < o.maxConcurrentTasks)
    (hs : wf.steps = pre ++ s :: post)
    (hseg : runSeg pre o.agents t = some (ag1, task1, recs))
    (hl : getEntry ag1 s.agentName = some a)
    (ha : a.behavior = b)
    (hb : ∀ k mt, b k (stepTask task1 s) mt = (ProcOutcome.raise (errs k), mt)) :
    (executeWorkflow o name t).1 =
      Except.error (errs (a.calls + retriesOr1 s.retries - 1)) ∧
    (executeWorkflow o name t).2.activeTasksCount = o.activeTasksCount := by
  rcases executeWithRetry_always_raise (stepTask task1 s) b errs hb a ha
      (retriesOr1 s.retries) (retriesOr1_pos s.retries) with ⟨sl, hx⟩
  have happ := runSteps_append_runSeg wf pre (s :: post) o.agents t [] ag1 task1 recs hseg
  have herr := runSteps_cons_err wf s post ag1 task1 ([] ++ recs) a
      { a with calls := a.calls + retriesOr1 s.retries,
               metrics := updateMetrics a.metrics 0 true }
      (errs (a.calls + retriesOr1 s.retries - 1)) sl hl hx
  rw [executeWorkflow_found o name t wf hw hc, hs, happ, herr]
  exact ⟨rfl, by simp⟩

def c1agent : Agent :=
  { name := "A1", role := "worker"
    behavior := fun _ _ m => (ProcOutcome.raise "c1err", m)
    calls := 0, metrics := freshMetrics }

def c1step : WorkflowStep :=
  { name := "s1", agentName := "A1", config := none, retries := some 2,
    escalateOnFailure := true }

def c1wf : Workflow :=
  { name := "w1", steps := [c1step], escalationHandler := none }

def c1orch : Orch :=
  { agents := [("A1", c1agent)], workflows := [("w1", c1wf)],
    activeTasksCount := 0, maxConcurrentTasks := 10 }

def c1task : Task :=
  { ttype := "x", data := none, stepName := none, stepConfig := none }

/-- Witness for C1's amended statement: a single-step workflow whose agent
always throws aborts with the raised error; the counter is restored. -/
theorem C1_exhaustion_aborts_workflow_witness :
    (executeWorkflow c1orch "w1" c1task).1 = Except.error "c1err" ∧
    (executeWorkflow c1orch "w1" c1task).2.activeTasksCount =
      c1orch.activeTasksCount :=
  C1_exhaustion_aborts_workflow c1orch "w1" c1task c1wf [] [] c1step
    c1orch.agents c1task [] c1agent
    (fun _ _ m => (ProcOutcome.raise "c1err", m)) (fun _ => "c1err")
    rfl (by decide) rfl rfl rfl rfl (fun k mt => rfl)

/-- Counterexample to C1 as stated: the failing step has
`escalateOnFailure := true` and `retries := 2`, its agent throws on every
attempt, yet executeWorkflow neither records the step nor escalates — it
aborts, surfacing the thrown error to its caller instead of a result
object. -/
theorem C1_counterexample :
    (executeWorkflow c1orch "w1" c1task).1 = Except.error "c1err" ∧
    c1step.escalateOnFailure = true := ⟨rfl, rfl⟩

/-! ### C3 -/

/-- C3: when a step's returned result has `success:false` and the step has
`escalateOnFailure:true`, the step loop stops at that step and hands the
escalation outcome back: the outcome has `success:false, escalated:true`,
its results list has exactly (index of the failing step) + 1 entries, and
every agent other than the failing step's and the escalation handler is
untouched from that point on — later steps never run. -/
theorem C3_escalation_stops_iteration (o : Orch) (name : String) (t : Task)
    (wf : Workflow) (pre post : List WorkflowStep) (s : WorkflowStep)
    (ag1 : AgentMap) (task1 : Task) (recs : List StepRecord)
    (a a1 : Agent) (r : AgentResult) (sl : List Nat)
    (hw : getEntry o.workflows name = some wf)
    (hc : o.activeTasksCount < o.maxConcurrentTasks)
    (hs : wf.steps = pre ++ s :: post)
    (hseg : runSeg pre o.agents t = some (ag1, task1, recs))
    (hl : getEntry ag1 s.agentName = some a)
    (hx : executeWithRetry a (stepTask task1 s) (retriesOr1 s.retries) =
          (Except.ok r, a1, sl))
    (hfail : r.success = false)
    (hesc : s.escalateOnFailure = true) :
    ∃ out : WfOutcome,
      (executeWorkflow o name t).1 = Except.ok out ∧
      out.success = false ∧ out.escalated = true ∧
      out.records.length = pre.length + 1 ∧
      ∀ nm, nm ≠ s.agentName → wf.escalationHandler ≠ some nm →
        getEntry (executeWorkflow o name t).2.agents nm = getEntry ag1 nm := by
  have hcond : (!r.success && s.escalateOnFailure) = true := by
    rw [hfail, hesc]; rfl
  have happ := runSteps_append_runSeg wf pre (s :: post) o.agents t [] ag1 task1 recs hseg
  have hstep := runSteps_cons_escalate wf s post ag1 task1 ([] ++ recs) a a1 r sl hl hx hcond
  rw [executeWorkflow_found o name t wf hw hc, hs, happ, hstep]
  refine ⟨_, rfl, (handleEscalation_flags _ wf s r _).1,
    (handleEscalation_flags _ wf s r _).2, ?_, ?_⟩
  · rw [handleEscalation_records]
    have hlen := runSeg_length pre o.agents t ag1 task1 recs hseg
    simp [hlen]
  · intro nm h1 h2
    rw [handleEscalation_getEntry_ne _ wf s r _ nm h2,
        getEntry_setEntry_ne ag1 s.agentName nm a1 h1]

def c3fail : AgentResult :=
  { success := false, data := none, error := some "task failed",
    agent := some "B3" }

def c3agentB : Agent :=
  { name := "B3", role := "worker"
    behavior := fun _ _ m => (ProcOutcome.ret c3fail, m)
    calls := 0, metrics := freshMetrics }

def c3agentZ : Agent :=
  { name := "Z3", role := "worker"
    behavior := fun _ _ m =>
      (ProcOutcome.ret { success := true, data := none, error := none,
                         agent := some "Z3" }, m)
    calls := 0, metrics := freshMetrics }

def c3agentB1 : Agent :=
  { c3agentB with calls := 1, metrics := updateMetrics freshMetrics 0 false }

def c3stepB : WorkflowStep :=
  { name := "sB", agentName := "B3", config := none, retries := none,
    escalateOnFailure := true }

def c3stepZ : WorkflowStep :=
  { name := "sZ", agentName := "Z3", config := none, retries := none,
    escalateOnFailure := false }

def c3wf : Workflow :=
  { name := "w3", steps := [c3stepB, c3stepZ], escalationHandler := none }

def c3orch : Orch :=
  { agents := [("B3", c3agentB), ("Z3", c3agentZ)],
    workflows := [("w3", c3wf)],
    activeTasksCount := 0, maxConcurrentTasks := 10 }

def c3task : Task :=
  { ttype := "x", data := none, stepName := none, stepConfig := none }

/-- Witness for C3: a two-step workflow whose first step fails with the
escalation flag set returns an escalated outcome with one record, and the
second step's agent is untouched. -/
theorem C3_escalation_stops_iteration_witness :
    ∃ out : WfOutcome,
      (executeWorkflow c3orch "w3" c3task).1 = Except.ok out ∧
      out.success = false ∧ out.escalated = true ∧
      out.records.length = List.length ([] : List WorkflowStep) + 1 ∧
      ∀ nm, nm ≠ c3stepB.agentName → c3wf.escalationHandler ≠ some nm →
        getEntry (executeWorkflow c3orch "w3" c3task).2.agents nm =
          getEntry c3orch.agents nm :=
  C3_escalation_stops_iteration c3orch "w3" c3task c3wf [] [c3stepZ] c3stepB
    c3orch.agents c3task [] c3agentB c3agentB1 c3fail []
    rfl (by decide) rfl rfl rfl rfl rfl rfl

/-! ### C4 -/

/-- C4: a step whose returned result has `success:false` but whose
`escalateOnFailure` is false does not abort the workflow: the loop
continues into the remaining steps with the failed step's (possibly
absent) data threaded forward, and the completed outcome carries one
record per step of the workflow definition. -/
theorem C4_soft_failure_continues (o : Orch) (name : String) (t : Task)
    (wf : Workflow) (pre post : List WorkflowStep) (s : WorkflowStep)
    (ag1 : AgentMap) (task1 : Task) (recs1 : List StepRecord)
    (a a1 : Agent) (r : AgentResult) (sl : List Nat)
    (ag2 : AgentMap) (task2 : Task) (recs2 : List StepRecord)
    (hw : getEntry o.workflows name = some wf)
    (hc : o.activeTasksCount < o.maxConcurrentTasks)
    (hs : wf.steps = pre ++ s :: post)
    (hseg : runSeg pre o.agents t = some (ag1, task1, recs1))
    (hl : getEntry ag1 s.agentName = some a)
    (hx : executeWithRetry a (stepTask task1 s) (retriesOr1 s.retries) =
          (Except.ok r, a1, sl))
    (hfail : r.success = false)
    (hesc : s.escalateOnFailure = false)
    (hseg2 : runSeg post (setEntry ag1 s.agentName a1) (threadTask task1 r) =
             some (ag2, task2, recs2)) :
    (executeWorkflow o name t).1 =
      Except.ok (WfOutcome.completed wf.name
        ((recs1 ++ [{ step := s.name, agent := s.agentName, result := r }])
          ++ recs2)) ∧
    ((recs1 ++ [({ step := s.name, agent := s.agentName, result := r } : StepRecord)])
       ++ recs2).length = wf.steps.length := by
  have hcond : (!r.success && s.escalateOnFailure) = false := by
    rw [hesc]; simp
  have happ := runSteps_append_runSeg wf pre (s :: post) o.agents t [] ag1 task1 recs1 hseg
  have hcont := runSteps_cons_continue wf s post ag1 task1 ([] ++ recs1) a a1 r sl hl hx hcond
  have happ2 := runSteps_append_runSeg wf post [] (setEntry ag1 s.agentName a1)
      (threadTask task1 r)
      (([] ++ recs1) ++ [{ step := s.name, agent := s.agentName, result := r }])
      ag2 task2 recs2 hseg2
  rw [List.append_nil] at happ2
  have hlen1 := runSeg_length pre o.agents t ag1 task1 recs1 hseg
  have hlen2 := runSeg_length post (setEntry ag1 s.agentName a1)
      (threadTask task1 r) ag2 task2 recs2 hseg2
  constructor
  · rw [executeWorkflow_found o name t wf hw hc, hs, happ, hcont, happ2]
    simp [runSteps]
  · simp [hs, hlen1, hlen2]

def c4fail : AgentResult :=
  { success := false, data := none, error := some "soft failure",
    agent := some "B4" }

def c4ok : AgentResult :=
  { success := true, data := none, error := none, agent := some "Z4" }

def c4agentB : Agent :=
  { name := "B4", role := "worker"
    behavior := fun _ _ m => (ProcOutcome.ret c4fail, m)
    calls := 0, metrics := freshMetrics }

def c4agentZ : Agent :=
  { name := "Z4", role := "worker"
    behavior := fun _ _ m => (ProcOutcome.ret c4ok, m)
    calls := 0, metrics := freshMetrics }

def c4agentB1 : Agent :=
  { c4agentB with calls := 1, metrics := updateMetrics freshMetrics 0 false }

def c4agentZ1 : Agent :=
  { c4agentZ with calls := 1, metrics := updateMetrics freshMetrics 0 false }

def c4stepB : WorkflowStep :=
  { name := "sB", agentName := "B4", config := none, retries := none,
    escalateOnFailure := false }

def c4stepZ : WorkflowStep :=
  { name := "sZ", agentName := "Z4", config := none, retries := none,
    escalateOnFailure := false }

def c4wf : Workflow :=
  { name := "w4", steps := [c4stepB, c4stepZ], escalationHandler := none }

def c4orch : Orch :=
  { agents := [("B4", c4agentB), ("Z4", c4agentZ)],
    workflows := [("w4", c4wf)],
    activeTasksCount := 0, maxConcurrentTasks := 10 }

def c4task : Task :=
  { ttype := "x", data := none, stepName := none, stepConfig := none }

/-- Witness for C4: the first step fails softly (flag false), the second
still runs, and the completed outcome has a record for both steps. -/
theorem C4_soft_failure_continues_witness :
    (executeWorkflow c4orch "w4" c4task).1 =
      Except.ok (WfOutcome.completed c4wf.name
        (([] ++ [{ step := c4stepB.name, agent := c4stepB.agentName,
                   result := c4fail }])
          ++ [{ step := "sZ", agent := "Z4", result := c4ok }])) ∧
    (([] ++ [({ step := c4stepB.name, agent := c4stepB.agentName,
                result := c4fail } : StepRecord)])
       ++ [({ step := "sZ", agent := "Z4", result := c4ok } : StepRecord)]).length =
      c4wf.steps.length :=
  C4_soft_failure_continues c4orch "w4" c4task c4wf [] [c4stepZ] c4stepB
    c4orch.agents c4task [] c4agentB c4agentB1 c4fail []
    [("B4", c4agentB1), ("Z4", c4agentZ1)] c4task
    [{ step := "sZ", agent := "Z4", result := c4ok }]
    rfl (by decide) rfl rfl rfl rfl rfl rfl rfl

/-! ### C5 -/

def c5resA : AgentResult :=
  { success := true, data := some (JVal.jobj [("v", JVal.jnum 2)]),
    error := none, agent := some "A5" }

def c5resNone : AgentResult :=
  { success := false, data := none, error := some "no data", agent := none }

def c5agentA : Agent :=
  { name := "A5", role := "worker"
    behavior := fun _ _ m => (ProcOutcome.ret c5resA, m)
    calls := 0, metrics := freshMetrics }

def c5agentB : Agent :=
  { name := "B5", role := "worker"
    behavior := fun _ t m =>
      (ProcOutcome.ret { success := true, data := t.data, error := none,
                         agent := some "B5" }, m)
    calls := 0, metrics := freshMetrics }

def c5stepA : WorkflowStep :=
  { name := "sA", agentName := "A5", config := none, retries := some 1,
    escalateOnFailure := false }

def c5stepB : WorkflowStep :=
  { name := "sB", agentName := "B5", config := none, retries := some 1,
    escalateOnFailure := false }

def c5wf : Workflow :=
  { name := "w5", steps := [c5stepA, c5stepB], escalationHandler := none }

def c5orch : Orch :=
  { agents := [("A5", c5agentA), ("B5", c5agentB)],
    workflows := [("w5", c5wf)],
    activeTasksCount := 0, maxConcurrentTasks := 10 }

def c5task : Task :=
  { ttype := "x", data := some (JVal.jobj [("v", JVal.jnum 1)]),
    stepName := none, stepConfig := none }

/-- C5: a step result carrying `data` replaces the task's `data` payload
wholesale for the next step (`threadTask` overwrites the field, it does
not merge); a result without `data` leaves the task unchanged.  In the
concrete two-step workflow of the claim — initial task data `{v:1}`,
agent A returning `{success:true, data:{v:2}}`, agent B echoing the task
data it receives — B's recorded result shows it received `{v:2}`. -/
theorem C5_data_replacement :
    (∀ (t : Task) (r : AgentResult) (d : JVal), r.data = some d →
       threadTask t r = { t with data := some d }) ∧
    (∀ (t : Task) (r : AgentResult), r.data = none → threadTask t r = t) ∧
    (executeWorkflow c5orch "w5" c5task).1 =
      Except.ok (WfOutcome.completed "w5"
        [{ step := "sA", agent := "A5", result := c5resA },
         { step := "sB", agent := "B5",
           result := { success := true,
                       data := some (JVal.jobj [("v", JVal.jnum 2)]),
                       error := none, agent := some "B5" } }]) ∧
    c5task.data = some (JVal.jobj [("v", JVal.jnum 1)]) := by
  refine ⟨?_, ?_, rfl, rfl⟩
  · intro t r d h
    simp [threadTask, h]
  · intro t r h
    simp [threadTask, h]

/-- Witness for C5's quantified parts at concrete inputs: a result with
data `{v:2}` overwrites the task's `{v:1}`, and a result without data
leaves the task as it was. -/
theorem C5_data_replacement_witness :
    threadTask c5task c5resA =
      { c5task with data := some (JVal.jobj [("v", JVal.jnum 2)]) } ∧
    threadTask c5task c5resNone = c5task :=
  ⟨C5_data_replacement.1 c5task c5resA (JVal.jobj [("v", JVal.jnum 2)]) rfl,
   C5_data_replacement.2.1 c5task c5resNone rfl⟩

/-! ### C6 -/

/-- C6 (amended): for a registered workflow name, a call made at capacity
(`activeTasksCount ≥ maxConcurrentTasks`, default cap 10) fails with the
capacity error and leaves the whole state — in particular the counter —
untouched; an unregistered name fails with the not-found error first,
also without touching the counter (this is the one departure from the
claim as stated).  On every path the counter after the call equals the
counter before it (the increment is always matched by the `finally`
decrement), so a counter starting non-negative stays non-negative. -/
theorem C6_capacity_and_counter (o : Orch) (name : String) (t : Task) :
    (∀ wf, getEntry o.workflows name = some wf →
       o.maxConcurrentTasks ≤ o.activeTasksCount →
       executeWorkflow o name t =
         (Except.error "Maximum concurrent tasks reached", o)) ∧
    (getEntry o.workflows name = none →
       executeWorkflow o name t =
         (Except.error ("Workflow not found: " ++ name), o)) ∧
    (executeWorkflow o name t).2.activeTasksCount = o.activeTasksCount ∧
    (0 ≤ o.activeTasksCount → 0 ≤ (executeWorkflow o name t).2.activeTasksCount) ∧
    Orch.init.maxConcurrentTasks = 10 ∧ Orch.init.activeTasksCount = 0 := by
  have hcount : (executeWorkflow o name t).2.activeTasksCount = o.activeTasksCount := by
    cases hw : getEntry o.workflows name with
    | none => rw [executeWorkflow_notfound o name t hw]
    | some wf =>
      by_cases hcap : o.maxConcurrentTasks ≤ o.activeTasksCount
      · rw [executeWorkflow_capacity o name t wf hw hcap]
      · rw [executeWorkflow_found o name t wf hw (not_le.mp hcap)]
        simp
  refine ⟨fun wf hw hcap => executeWorkflow_capacity o name t wf hw hcap,
    fun hw => executeWorkflow_notfound o name t hw,
    hcount, fun h0 => by rw [hcount]; exact h0, rfl, rfl⟩

def c6task : Task :=
  { ttype := "x", data := none, stepName := none, stepConfig := none }

def c6orch : Orch :=
  { agents := [], workflows := [], activeTasksCount := 10,
    maxConcurrentTasks := 10 }

/-- Counterexample to C6 as stated: a call made at capacity with an
unregistered workflow name fails with the not-found error, not the
capacity error — the workflow lookup precedes the capacity check. -/
theorem C6_counterexample :
    executeWorkflow c6orch "missing" c6task =
      (Except.error "Workflow not found: missing", c6orch) ∧
    c6orch.maxConcurrentTasks ≤ c6orch.activeTasksCount ∧
    "Workflow not found: missing" ≠ "Maximum concurrent tasks reached" :=
  ⟨rfl, by decide, by decide⟩

def c6wf : Workflow := { name := "w6", steps := [], escalationHandler := none }

def w6orch : Orch :=
  { agents := [], workflows := [("w6", c6wf)], activeTasksCount := 10,
    maxConcurrentTasks := 10 }

/-- Witness for C6's amended statement: at capacity with a registered
name the call fails with the capacity error and the state is untouched. -/
theorem C6_capacity_and_counter_witness :
    executeWorkflow w6orch "w6" c6task =
      (Except.error "Maximum concurrent tasks reached", w6orch) ∧
    (executeWorkflow w6orch "w6" c6task).2.activeTasksCount =
      w6orch.activeTasksCount :=
  ⟨(C6_capacity_and_counter w6orch "w6" c6task).1 c6wf rfl (by decide),
   (C6_capacity_and_counter w6orch "w6" c6task).2.2.1⟩

/-! ### C7 -/

/-- C7: registerAgent on a name already present fails with the
duplicate-name error and leaves the registry (hence its size) untouched;
on an absent name it inserts the agent, growing the registry by one, and
a second registration under the same name then fails with the
duplicate-name error without changing the state. -/
theorem C7_register_agent_duplicate (o : Orch) (a : Agent) :
    (∀ b, getEntry o.agents a.name = some b →
       registerAgent o a =
         (some ("Agent " ++ a.name ++ " is already registered"), o)) ∧
    (getEntry o.agents a.name = none →
       (registerAgent o a).1 = none ∧
       getEntry (registerAgent o a).2.agents a.name = some a ∧
       (registerAgent o a).2.agents.length = o.agents.length + 1 ∧
       ∀ b : Agent, b.name = a.name →
         registerAgent (registerAgent o a).2 b =
           (some ("Agent " ++ b.name ++ " is already registered"),
            (registerAgent o a).2)) := by
  constructor
  · intro b hb
    simp [registerAgent, hb]
  · intro hn
    have h1 : (registerAgent o a).2 = { o with agents := setEntry o.agents a.name a } := by
      simp [registerAgent, hn]
    refine ⟨by simp [registerAgent, hn], ?_, ?_, ?_⟩
    · rw [h1]
      exact getEntry_setEntry_self o.agents a.name a
    · rw [h1]
      exact setEntry_length_absent o.agents a.name a hn
    · intro b hbname
      rw [h1]
      have hfound : getEntry (setEntry o.agents a.name a) b.name = some a := by
        rw [hbname]
        exact getEntry_setEntry_self o.agents a.name a
      simp [registerAgent, hfound]

def a7 : Agent :=
  { name := "X7", role := "worker"
    behavior := fun _ _ m => (ProcOutcome.raise "unused", m)
    calls := 0, metrics := freshMetrics }

/-- Witness for C7: on an empty registry, registering "X7" succeeds and
grows the registry to one entry; registering it again fails with the
duplicate-name error and changes nothing. -/
theorem C7_register_agent_duplicate_witness :
    (registerAgent Orch.init a7).1 = none ∧
    getEntry (registerAgent Orch.init a7).2.agents a7.name = some a7 ∧
    (registerAgent Orch.init a7).2.agents.length =
      Orch.init.agents.length + 1 ∧
    registerAgent (registerAgent Orch.init a7).2 a7 =
      (some ("Agent " ++ a7.name ++ " is already registered"),
       (registerAgent Orch.init a7).2) :=
  ⟨((C7_register_agent_duplicate Orch.init a7).2 rfl).1,
   ((C7_register_agent_duplicate Orch.init a7).2 rfl).2.1,
   ((C7_register_agent_duplicate Orch.init a7).2 rfl).2.2.1,
   ((C7_register_agent_duplicate Orch.init a7).2 rfl).2.2.2 a7 rfl⟩

/-! ### C8 -/

/-- C8: handleEscalation always hands a well-formed outcome object back —
its model returns a `WfOutcome`, never an error, because the only call
that can throw (the handler's own `process`) sits inside a try/catch in
the source — and every outcome it returns carries `success:false,
escalated:true`.  When the workflow's escalation handler itself throws,
the error is swallowed and the default outcome
`{success:false, escalated:true, failedStep, error, previousResults}` is
returned. -/
theorem C8_escalation_handler_swallowed (ag : AgentMap) (wf : Workflow)
    (s : WorkflowStep) (r : AgentResult) (rs : List StepRecord) :
    ((handleEscalation ag wf s r rs).1.success = false ∧
     (handleEscalation ag wf s r rs).1.escalated = true) ∧
    (∀ hname handler e m,
       wf.escalationHandler = some hname →
       getEntry ag hname = some handler →
       handler.behavior handler.calls (escalationTask wf s r rs)
           handler.metrics = (ProcOutcome.raise e, m) →
       (handleEscalation ag wf s r rs).1 =
         WfOutcome.escalatedDefault s.name r rs) := by
  refine ⟨handleEscalation_flags ag wf s r rs, ?_⟩
  intro hname handler e m h1 h2 h3
  simp [handleEscalation, h1, h2, h3]

def c8handler : Agent :=
  { name := "H8", role := "handler"
    behavior := fun _ _ m => (ProcOutcome.raise "handler blew up", m)
    calls := 0, metrics := freshMetrics }

def c8ag : AgentMap := [("H8", c8handler)]

def c8wf : Workflow :=
  { name := "w8", steps := [], escalationHandler := some "H8" }

def c8step : WorkflowStep :=
  { name := "s8", agentName := "B8", config := none, retries := none,
    escalateOnFailure := true }

def c8res : AgentResult :=
  { success := false, data := none, error := some "step failed",
    agent := some "B8" }

/-- Witness for C8: a throwing escalation handler is swallowed and the
default outcome (with its flags) is handed back. -/
theorem C8_escalation_handler_swallowed_witness :
    ((handleEscalation c8ag c8wf c8step c8res []).1.success = false ∧
     (handleEscalation c8ag c8wf c8step c8res []).1.escalated = true) ∧
    (handleEscalation c8ag c8wf c8step c8res []).1 =
      WfOutcome.escalatedDefault c8step.name c8res [] :=
  ⟨(C8_escalation_handler_swallowed c8ag c8wf c8step c8res []).1,
   (C8_escalation_handler_swallowed c8ag c8wf c8step c8res []).2
     "H8" c8handler "handler blew up" c8handler.metrics rfl rfl rfl⟩

/-! ### C10 -/

/-- C10: for an agent following the BaseAgent `process` template, every
non-throwing `process` call already updates the agent's own metrics
(success path: `updateMetrics(duration,false)`; caught error path:
`handleError`'s `updateMetrics(0,true)`), and executeWithRetry then calls
`agent.updateMetrics(duration,false)` again on the returned result — so
one orchestrated call grows `tasksProcessed` by 2, and a returned failed
result grows `errors` by 1 (via the agent) alongside the double
`tasksProcessed`.  When `process` throws on every attempt (validateTask
failure, which precedes any metric update), exhaustion adds the
orchestrator's own `updateMetrics(0,true)`: `tasksProcessed` +1 and
`errors` +1. -/
theorem C10_orchestrator_double_metrics (name role : String)
    (dispatch : Task → Except String JVal) (a : Agent) (t : Task) (n : Nat)
    (hn : 0 < n)
    (hbeh : a.behavior = fun _ t2 m => baseProcess name dispatch t2 m) :
    (∀ d, validateTask t = Except.ok () → dispatch t = Except.ok d →
       (executeWithRetry a t n).1 =
         Except.ok { success := true, data := some d, error := none,
                     agent := some name } ∧
       (executeWithRetry a t n).2.1.metrics.tasksProcessed =
         a.metrics.tasksProcessed + 2 ∧
       (executeWithRetry a t n).2.1.metrics.errors = a.metrics.errors) ∧
    (∀ e, validateTask t = Except.ok () → dispatch t = Except.error e →
       (executeWithRetry a t n).1 =
         Except.ok { success := false, data := none, error := some e,
                     agent := some name } ∧
       (executeWithRetry a t n).2.1.metrics.tasksProcessed =
         a.metrics.tasksProcessed + 2 ∧
       (executeWithRetry a t n).2.1.metrics.errors = a.metrics.errors + 1) ∧
    (∀ e, validateTask t = Except.error e →
       (executeWithRetry a t n).1 = Except.error e ∧
       (executeWithRetry a t n).2.1.metrics.tasksProcessed =
         a.metrics.tasksProcessed + 1 ∧
       (executeWithRetry a t n).2.1.metrics.errors = a.metrics.errors + 1) := by
  rcases n with _ | k
  · omega
  · refine ⟨?_, ?_, ?_⟩
    · intro d hv hd
      have hret : a.behavior a.calls t a.metrics =
          (ProcOutcome.ret { success := true, data := some d, error := none,
                             agent := some name },
           updateMetrics a.metrics 0 false) := by
        rw [hbeh]
        simp [baseProcess, hv, hd]
      rw [executeWithRetry, retryAux_succ_ret t k 1 none a _ _ hret]
      refine ⟨rfl, ?_, ?_⟩
      · rw [updateMetrics_tasksProcessed, updateMetrics_tasksProcessed]
      · rw [updateMetrics_errors_false, updateMetrics_errors_false]
    · intro e hv hd
      have hret : a.behavior a.calls t a.metrics =
          (ProcOutcome.ret { success := false, data := none, error := some e,
                             agent := some name },
           updateMetrics a.metrics 0 true) := by
        rw [hbeh]
        simp [baseProcess, handleError, hv, hd]
      rw [executeWithRetry, retryAux_succ_ret t k 1 none a _ _ hret]
      refine ⟨rfl, ?_, ?_⟩
      · rw [updateMetrics_tasksProcessed, updateMetrics_tasksProcessed]
      · rw [updateMetrics_errors_false, updateMetrics_errors_true]
    · intro e hv
      have hb2 : ∀ (j : Nat) (mt : Metrics),
          (fun _ t2 m => baseProcess name dispatch t2 m) j t mt =
          (ProcOutcome.raise ((fun (_ : Nat) => e) j), mt) := by
        intro j mt
        simp [baseProcess, hv]
      rcases executeWithRetry_always_raise t _ (fun _ => e) hb2 a hbeh (k + 1)
          (Nat.succ_pos k) with ⟨sl, hx⟩
      rw [hx]
      refine ⟨rfl, ?_, ?_⟩
      · rw [updateMetrics_tasksProcessed]
      · rw [updateMetrics_errors_true]

def w10dispatch : Task → Except String JVal :=
  fun _ => Except.error "Unknown task type: zzz"

def w10agent : Agent :=
  mkBaseAgent "ResearchAgent" "Planning and Information Gathering" w10dispatch

def w10task : Task :=
  { ttype := "zzz", data := some (JVal.jnum 1), stepName := none,
    stepConfig := none }

/-- Witness for C10: a valid task whose dispatch throws (unknown type) is
converted into a returned failed result by the agent, and the
orchestrated call grows `tasksProcessed` by 2 and `errors` by 1. -/
theorem C10_orchestrator_double_metrics_witness :
    (executeWithRetry w10agent w10task 1).1 =
      Except.ok { success := false, data := none,
                  error := some "Unknown task type: zzz",
                  agent := some "ResearchAgent" } ∧
    (executeWithRetry w10agent w10task 1).2.1.metrics.tasksProcessed =
      w10agent.metrics.tasksProcessed + 2 ∧
    (executeWithRetry w10agent w10task 1).2.1.metrics.errors =
      w10agent.metrics.errors + 1 :=
  (C10_orchestrator_double_metrics "ResearchAgent"
      "Planning and Information Gathering" w10dispatch w10agent w10task 1
      (by decide) rfl).2.1 "Unknown task type: zzz" rfl rfl

end MultiAgent
